import Mathlib

/-!
Verification development for the calendar dialogue component
(`CalendarDialogueComponent.h/.cpp`): a finite-state machine that collects a
calendar event record through a sequence of question/answer turns and hands a
completed record off to a backend manager.

Modelling conventions:
* `FString` is modelled as `List Char`.  `ToLower` is modelled per-character on
  ASCII (the only case the patterns of the dialogue exercise); `TrimStartAndEnd`
  strips the whitespace characters space, tab, newline, carriage return from
  both ends.  `FString::Contains` is case-insensitive in the engine, but every
  call site first lowercases the haystack and searches for a lowercase literal,
  so a case-sensitive substring test is equivalent there.
* `FDateTime` is modelled at calendar granularity (year/month/day plus
  hour/minute/second); the engine tick representation decodes/encodes
  year-month-day bijectively, `FTimespan::FromDays(1)` addition is calendar
  day-successor, and the default-constructed value (ticks 0) is
  0001-01-01 00:00:00, the engine value `MinValue`.
* `FCString::Atoi` is modelled as the exact decimal value of the digit run
  (the flows under specification never reach 32-bit overflow).
* Delegate broadcasts (`OnAskQuestion`, `OnEventCreated`, `OnFlowCancelled`),
  the outbound `SendMessageToBackend` call, and the missing-manager error log
  form the observable event alphabet; purely diagnostic log lines are not part
  of the observable trace.
* The world outside the component is reduced to two parameters: `now` (the
  value `FDateTime::Now()` would return during the flow) and `managerFound`
  (whether `GetAllActorsOfClass` finds an `AICompanionManager`).
-/

namespace CalendarDialogue

/-! ### String primitives (FString operations used by the component) -/

/-- Whitespace test used by `TrimStartAndEnd`. -/
def isSpaceChar (c : Char) : Bool :=
  c = ' ' || c = '\t' || c = '\n' || c = '\r'

/-- Model of `FString::TrimStartAndEnd`: drop whitespace from both ends. -/
def trimStartAndEnd (s : List Char) : List Char :=
  ((s.dropWhile isSpaceChar).reverse.dropWhile isSpaceChar).reverse

/-- Model of `FString::ToLower`, per character (ASCII). -/
def toLowerStr (s : List Char) : List Char :=
  s.map Char.toLower

/-- Model of `FString::Contains`: substring test (call sites search lowercase literals
in an already-lowercased haystack, so the engine case-insensitivity is moot). -/
def strContains (hay pat : List Char) : Bool :=
  match hay with
  | [] => pat.isEmpty
  | c :: t => pat.isPrefixOf (c :: t) || strContains t pat

/-! ### Number extraction (`ExtractNumber`, `FCString::Atoi`) -/

/-- The digit-collecting loop of `ExtractNumber`: append digits to `acc`;
a non-digit continues the scan while `acc` is empty and stops it otherwise. -/
def collectDigits (acc : List Char) : List Char → List Char
  | [] => acc
  | c :: rest =>
    if c.isDigit then collectDigits (acc ++ [c]) rest
    else if acc.isEmpty then collectDigits acc rest
    else acc

/-- Model of `FCString::Atoi` on a string of decimal digits: its numeric value. -/
def atoiDigits (ds : List Char) : Nat :=
  ds.foldl (fun n c => n * 10 + (c.toNat - 48)) 0

/-- Model of `UCalendarDialogueComponent::ExtractNumber`. -/
def ExtractNumber (input : List Char) : Nat :=
  let numberStr := collectDigits [] input
  if numberStr.isEmpty then 0 else atoiDigits numberStr

/-- Model of `UCalendarDialogueComponent::ParseDuration`.  The `Number <= 0` rejection
in the source is `= 0` here because the digit run is never negative. -/
def ParseDuration (input : List Char) : Nat :=
  let lower := trimStartAndEnd (toLowerStr input)
  let number := ExtractNumber lower
  if number = 0 then 0
  else if strContains lower ("hour".data) then number * 60
  else if strContains lower ("minute".data) || strContains lower ("min".data) then number
  else number

/-- Model of `UCalendarDialogueComponent::IsAffirmative`. -/
def IsAffirmative (answer : List Char) : Bool :=
  let lower := trimStartAndEnd (toLowerStr answer)
  lower == "yes".data ||
  lower == "yeah".data ||
  lower == "yep".data ||
  lower == "sure".data ||
  lower == "ok".data ||
  lower == "okay".data ||
  lower == "y".data ||
  lower == "confirm".data ||
  lower == "correct".data ||
  lower == "right".data

/-! ### FDateTime model -/

/-- Model of `FDateTime` at calendar granularity (milliseconds are always zero in the
values this component constructs or compares). -/
structure FDateTime where
  year : Nat
  month : Nat
  day : Nat
  hour : Nat
  minute : Nat
  second : Nat
deriving DecidableEq, Repr

/-- Model of `FDateTime::MinValue()` (ticks 0 = 0001-01-01 00:00:00), also the
default-constructed value. -/
def FDateTime.minValue : FDateTime := ⟨1, 1, 1, 0, 0, 0⟩

instance : Inhabited FDateTime := ⟨FDateTime.minValue⟩

def isLeapYear (y : Nat) : Bool :=
  y % 4 = 0 && (y % 100 ≠ 0 || y % 400 = 0)

def daysInMonth (y m : Nat) : Nat :=
  if m = 2 then (if isLeapYear y then 29 else 28)
  else if m = 4 ∨ m = 6 ∨ m = 9 ∨ m = 11 then 30
  else 31

/-- Model of `dt + FTimespan::FromDays(1)`: the next calendar day, same time of day. -/
def addOneDay (d : FDateTime) : FDateTime :=
  if d.day < daysInMonth d.year d.month then { d with day := d.day + 1 }
  else if d.month < 12 then { d with day := 1, month := d.month + 1 }
  else { d with day := 1, month := 1, year := d.year + 1 }

/-- Model of `UCalendarDialogueComponent::ParseDateTime`.  `now` is the value
`FDateTime::Now()` returns at the moment of the call. -/
def ParseDateTime (now : FDateTime) (input : List Char) : FDateTime :=
  let lower := trimStartAndEnd (toLowerStr input)
  if strContains lower ("tomorrow".data) then
    let result := addOneDay now
    if strContains lower ("at".data) then
      let hour :=
        if strContains lower ("pm".data) then
          let h := ExtractNumber lower
          if h < 12 then h + 12 else h
        else if strContains lower ("am".data) then ExtractNumber lower
        else 12
      ⟨result.year, result.month, result.day, hour, 0, 0⟩
    else result
  else if strContains lower ("today".data) then
    let result := now
    if strContains lower ("at".data) then
      let hour :=
        if strContains lower ("pm".data) then
          let h := ExtractNumber lower
          if h < 12 then h + 12 else h
        else if strContains lower ("am".data) then ExtractNumber lower
        else 12
      ⟨result.year, result.month, result.day, hour, 0, 0⟩
    else result
  else FDateTime.minValue

/-! ### Data model -/

/-- Model of `ECalendarDialogueState`. -/
inductive ECalendarDialogueState where
  | Idle
  | AskingEventName
  | AskingDateTime
  | AskingDuration
  | AskingLocation
  | AskingNotes
  | AskingPriority
  | Confirming
  | Creating
  | Complete
deriving DecidableEq, Repr

/-- Model of `FCalendarEventData` with its C++ member initialisers as defaults
(`DurationMinutes = 60`, `Priority = 5`, `bIsValid = false`, empty strings,
default-constructed `FDateTime`). -/
structure FCalendarEventData where
  eventName : List Char := []
  dateTime : FDateTime := FDateTime.minValue
  durationMinutes : Nat := 60
  location : List Char := []
  notes : List Char := []
  priority : Nat := 5
  bIsValid : Bool := false
deriving DecidableEq, Repr

/-- Observable outputs: the three delegate broadcasts, the outbound
`SendMessageToBackend` call, and the missing-manager error log. -/
inductive CalEvent where
  | askQuestion (q : List Char)
  | eventCreated (d : FCalendarEventData)
  | flowCancelled
  | sentToBackend (json : List Char)
  | errorNoManager
deriving DecidableEq, Repr

/-- The mutable state of the component: `CurrentState` and `EventData`. -/
structure MState where
  currentState : ECalendarDialogueState := .Idle
  eventData : FCalendarEventData := {}
deriving DecidableEq, Repr

/-! ### Number formatting (Printf %d and zero-padded fields) -/

/-- Decimal digits of `n` (fuel-structural so the kernel can evaluate it). -/
def natDigitsCore : Nat → Nat → List Char → List Char
  | 0, _, acc => acc
  | fuel + 1, n, acc =>
    let acc' := Char.ofNat (48 + n % 10) :: acc
    if n < 10 then acc' else natDigitsCore fuel (n / 10) acc'

/-- Model of `Printf("%d", n)` for a non-negative value. -/
def natToStr (n : Nat) : List Char := natDigitsCore (n + 1) n []

/-- Model of `Printf("%02i", n)`. -/
def pad2 (n : Nat) : List Char := if n < 10 then '0' :: natToStr n else natToStr n

/-- Model of `Printf("%03i", n)`. -/
def pad3 (n : Nat) : List Char :=
  if n < 10 then '0' :: '0' :: natToStr n
  else if n < 100 then '0' :: natToStr n
  else natToStr n

/-- Model of `Printf("%04i", n)`. -/
def pad4 (n : Nat) : List Char :=
  if n < 10 then '0' :: '0' :: '0' :: natToStr n
  else if n < 100 then '0' :: '0' :: natToStr n
  else if n < 1000 then '0' :: natToStr n
  else natToStr n

/-- Model of `FDateTime::ToIso8601()` = `ToString` with format `%Y-%m-%dT%H:%M:%S.%sZ`; the
millisecond field is always 0 in this model. -/
def ToIso8601 (d : FDateTime) : List Char :=
  pad4 d.year ++ "-".data ++ pad2 d.month ++ "-".data ++ pad2 d.day ++
  "T".data ++ pad2 d.hour ++ ":".data ++ pad2 d.minute ++ ":".data ++
  pad2 d.second ++ ".".data ++ pad3 0 ++ "Z".data

/-- Model of `DateTime.ToString` with format `%B %d, %Y at %I:%M %p`.  The engine
formatter recognises only `%a %A %d %D %m %y %Y %h %H %M %S %s`; an
unrecognised specifier emits the character after the percent sign literally,
so `%B`, `%I` and `%p` degrade to the letters `B`, `I`, `p`. -/
def toStringConfirmFormat (d : FDateTime) : List Char :=
  "B ".data ++ pad2 d.day ++ ", ".data ++ pad4 d.year ++
  " at I:".data ++ pad2 d.minute ++ " p".data

/-- Model of `UCalendarDialogueComponent::GenerateConfirmationMessage`. -/
def GenerateConfirmationMessage (d : FCalendarEventData) : List Char :=
  "Here\x27s what I have:\n\n".data ++
  "📅 ".data ++ d.eventName ++ "\n".data ++
  "⏰ ".data ++ toStringConfirmFormat d.dateTime ++ "\n".data ++
  "⏱️ Duration: ".data ++ natToStr d.durationMinutes ++ " minutes\n".data ++
  (if d.location.isEmpty then [] else "📍 ".data ++ d.location ++ "\n".data) ++
  (if d.notes.isEmpty then [] else "📝 ".data ++ d.notes ++ "\n".data) ++
  "⭐ Priority: ".data ++ natToStr d.priority ++ "/10\n\n".data ++
  "Should I create this event?".data

/-- The JSON payload assembled in `SendEventToBackend` — a verbatim model of
the `Printf` concatenation, which embeds the free-form fields unescaped. -/
def buildJSON (d : FCalendarEventData) : List Char :=
  "\x7b".data ++
  "\"type\":\"create_calendar_event\",".data ++
  "\"eventName\":\"".data ++ d.eventName ++ "\",".data ++
  "\"dateTime\":\"".data ++ ToIso8601 d.dateTime ++ "\",".data ++
  "\"durationMinutes\":".data ++ natToStr d.durationMinutes ++ ",".data ++
  "\"location\":\"".data ++ d.location ++ "\",".data ++
  "\"notes\":\"".data ++ d.notes ++ "\",".data ++
  "\"priority\":".data ++ natToStr d.priority ++
  "\x7d".data

/-! ### Answer processors -/

/-- Model of `UCalendarDialogueComponent::ProcessEventName`: reject when the raw
answer is empty or shorter than 2 characters, otherwise store the trimmed
text. -/
def ProcessEventName (d : FCalendarEventData) (answer : List Char) :
    Option FCalendarEventData :=
  if answer.isEmpty || answer.length < 2 then none
  else some { d with eventName := trimStartAndEnd answer }

/-- Model of `UCalendarDialogueComponent::ProcessDateTime`. -/
def ProcessDateTime (now : FDateTime) (d : FCalendarEventData)
    (answer : List Char) : Option FCalendarEventData :=
  let parsed := ParseDateTime now answer
  if parsed = FDateTime.minValue then none
  else some { d with dateTime := parsed }

/-- Model of `UCalendarDialogueComponent::ProcessDuration`. -/
def ProcessDuration (d : FCalendarEventData) (answer : List Char) :
    Option FCalendarEventData :=
  let minutes := ParseDuration answer
  if minutes = 0 then none
  else some { d with durationMinutes := minutes }

/-- Model of `UCalendarDialogueComponent::ProcessLocation` (always succeeds; the
source lowercases the trimmed answer for the sentinel test). -/
def ProcessLocation (d : FCalendarEventData) (answer : List Char) :
    FCalendarEventData :=
  let trimmed := toLowerStr (trimStartAndEnd answer)
  if trimmed == "none".data || trimmed == "no".data || trimmed == "skip".data
  then { d with location := [] }
  else { d with location := trimStartAndEnd answer }

/-- Model of `UCalendarDialogueComponent::ProcessNotes` (always succeeds). -/
def ProcessNotes (d : FCalendarEventData) (answer : List Char) :
    FCalendarEventData :=
  let trimmed := toLowerStr (trimStartAndEnd answer)
  if trimmed == "none".data || trimmed == "no".data || trimmed == "skip".data
  then { d with notes := [] }
  else { d with notes := trimStartAndEnd answer }

/-- Model of `UCalendarDialogueComponent::ProcessPriority`. -/
def ProcessPriority (d : FCalendarEventData) (answer : List Char) :
    Option FCalendarEventData :=
  let p := ExtractNumber answer
  if p < 1 || p > 10 then none
  else some { d with priority := p }

/-! ### State machine operations -/

/-- Model of `UCalendarDialogueComponent::CancelFlow`: reset to `Idle`, reset the
record, broadcast `OnFlowCancelled`.  The source reads none of the prior
state. -/
def CancelFlow (_m : MState) : MState × List CalEvent :=
  (⟨.Idle, {}⟩, [.flowCancelled])

/-- Model of `UCalendarDialogueComponent::ProcessConfirmation`: affirmative marks the
record valid; anything else cancels the flow and reports failure. -/
def ProcessConfirmation (m : MState) (answer : List Char) :
    Bool × MState × List CalEvent :=
  if IsAffirmative answer then
    (true, { m with eventData := { m.eventData with bIsValid := true } }, [])
  else
    let c := CancelFlow m
    (false, c.1, c.2)

/-- Adapt an `Option`-returning processor to the bool-plus-mutation calling
convention of the source. -/
def liftProcessor (m : MState) : Option FCalendarEventData →
    Bool × MState × List CalEvent
  | none => (false, m, [])
  | some d => (true, { m with eventData := d }, [])

/-- Model of `UCalendarDialogueComponent::ProcessAnswer`. -/
def ProcessAnswer (now : FDateTime) (m : MState) (answer : List Char) :
    Bool × MState × List CalEvent :=
  match m.currentState with
  | .AskingEventName => liftProcessor m (ProcessEventName m.eventData answer)
  | .AskingDateTime => liftProcessor m (ProcessDateTime now m.eventData answer)
  | .AskingDuration => liftProcessor m (ProcessDuration m.eventData answer)
  | .AskingLocation => (true, { m with eventData := ProcessLocation m.eventData answer }, [])
  | .AskingNotes => (true, { m with eventData := ProcessNotes m.eventData answer }, [])
  | .AskingPriority => liftProcessor m (ProcessPriority m.eventData answer)
  | .Confirming => ProcessConfirmation m answer
  | _ => (false, m, [])

/-- Model of `UCalendarDialogueComponent::AskCurrentQuestion`: broadcast the question
for the current state (nothing in `Idle`/`Creating`/`Complete`). -/
def AskCurrentQuestion (s : ECalendarDialogueState) (d : FCalendarEventData) :
    List CalEvent :=
  match s with
  | .AskingEventName =>
      [.askQuestion ("What would you like to call this event?".data)]
  | .AskingDateTime =>
      [.askQuestion ("When would you like to schedule it? (e.g., \x27tomorrow at 2pm\x27, \x27November 5 at 3:30pm\x27)".data)]
  | .AskingDuration =>
      [.askQuestion ("How long will it take? (e.g., \x271 hour\x27, \x2730 minutes\x27)".data)]
  | .AskingLocation =>
      [.askQuestion ("Where will this take place? (or say \x27none\x27)".data)]
  | .AskingNotes =>
      [.askQuestion ("Any notes or details? (or say \x27none\x27)".data)]
  | .AskingPriority =>
      [.askQuestion ("How important is this event? (1-10, where 10 is most important)".data)]
  | .Confirming =>
      [.askQuestion (GenerateConfirmationMessage d)]
  | _ => []

/-- Model of `UCalendarDialogueComponent::SendEventToBackend`: if no
`AICompanionManager` actor is found, log an error and return (the record is
untouched); otherwise build the JSON payload, send it, and broadcast
`OnEventCreated`. -/
def SendEventToBackend (managerFound : Bool) (d : FCalendarEventData) :
    List CalEvent :=
  if managerFound then
    [.sentToBackend (buildJSON d), .eventCreated d]
  else
    [.errorNoManager]

/-- Model of `UCalendarDialogueComponent::AdvanceToNextState`. -/
def AdvanceToNextState (managerFound : Bool) (m : MState) :
    MState × List CalEvent :=
  match m.currentState with
  | .AskingEventName =>
      ({ m with currentState := .AskingDateTime },
       AskCurrentQuestion .AskingDateTime m.eventData)
  | .AskingDateTime =>
      ({ m with currentState := .AskingDuration },
       AskCurrentQuestion .AskingDuration m.eventData)
  | .AskingDuration =>
      ({ m with currentState := .AskingLocation },
       AskCurrentQuestion .AskingLocation m.eventData)
  | .AskingLocation =>
      ({ m with currentState := .AskingNotes },
       AskCurrentQuestion .AskingNotes m.eventData)
  | .AskingNotes =>
      ({ m with currentState := .AskingPriority },
       AskCurrentQuestion .AskingPriority m.eventData)
  | .AskingPriority =>
      ({ m with currentState := .Confirming },
       AskCurrentQuestion .Confirming m.eventData)
  | .Confirming =>
      -- the source passes through Creating and Complete and rests in Idle
      ({ m with currentState := .Idle }, SendEventToBackend managerFound m.eventData)
  | _ => ({ m with currentState := .Idle }, [])

/-- Model of `UCalendarDialogueComponent::StartEventCreation`: reset the record, move
to `AskingEventName`, ask the first question. -/
def StartEventCreation (_m : MState) : MState × List CalEvent :=
  (⟨.AskingEventName, {}⟩, AskCurrentQuestion .AskingEventName {})

/-- Model of `UCalendarDialogueComponent::ProcessUserResponse`. -/
def ProcessUserResponse (now : FDateTime) (managerFound : Bool) (m : MState)
    (response : List Char) : MState × List CalEvent :=
  if m.currentState = .Idle then (m, [])
  else
    let p := ProcessAnswer now m response
    if p.1 then
      let a := AdvanceToNextState managerFound p.2.1
      (a.1, p.2.2 ++ a.2)
    else
      (p.2.1, p.2.2 ++ AskCurrentQuestion p.2.1.currentState p.2.1.eventData)

/-! ### Run combinators -/

/-- Feed a list of user responses through `ProcessUserResponse`, accumulating
the observable trace. -/
def runResponses (now : FDateTime) (managerFound : Bool) :
    MState → List (List Char) → MState × List CalEvent
  | m, [] => (m, [])
  | m, r :: rs =>
    let p := ProcessUserResponse now managerFound m r
    let q := runResponses now managerFound p.1 rs
    (q.1, p.2 ++ q.2)

/-- Run `StartEventCreation` followed by a list of responses. -/
def runFlow (now : FDateTime) (managerFound : Bool) (m : MState)
    (responses : List (List Char)) : MState × List CalEvent :=
  let s := StartEventCreation m
  let q := runResponses now managerFound s.1 responses
  (q.1, s.2 ++ q.2)

/-- Project the completed-record hand-offs out of a trace. -/
def createdRecord : CalEvent → Option FCalendarEventData
  | .eventCreated d => some d
  | _ => none

/-! ### Transport-safety checker: well-formedness of a flat JSON object
(string keys; string or non-negative integer values; string literals support
backslash escapes; no insignificant whitespace, matching what the component
emits). -/

/-- Scanner states for the flat-JSON object checker. -/
inductive JScan where
  | expectOpen
  | expectKeyQuote
  | inKey
  | inKeyEsc
  | expectColon
  | expectValueStart
  | inStr
  | inStrEsc
  | inNum
  | afterValue
  | done
  | reject
deriving DecidableEq, Repr

/-- One character of the flat-JSON scan. -/
def jsonScanStep (st : JScan) (c : Char) : JScan :=
  match st with
  | .expectOpen => if c = '\x7b' then .expectKeyQuote else .reject
  | .expectKeyQuote => if c = '"' then .inKey else .reject
  | .inKey => if c = '"' then .expectColon else if c = '\\' then .inKeyEsc else .inKey
  | .inKeyEsc => .inKey
  | .expectColon => if c = ':' then .expectValueStart else .reject
  | .expectValueStart =>
      if c = '"' then .inStr else if c.isDigit then .inNum else .reject
  | .inStr => if c = '"' then .afterValue else if c = '\\' then .inStrEsc else .inStr
  | .inStrEsc => .inStr
  | .inNum =>
      if c.isDigit then .inNum
      else if c = ',' then .expectKeyQuote
      else if c = '\x7d' then .done
      else .reject
  | .afterValue =>
      if c = ',' then .expectKeyQuote
      else if c = '\x7d' then .done
      else .reject
  | .done => .reject
  | .reject => .reject

/-- Run the scanner over a character list. -/
def jsonScanRun : JScan → List Char → JScan
  | st, [] => st
  | st, c :: rest => jsonScanRun (jsonScanStep st c) rest

/-- A payload is transport-safe (well-formed) when the whole input is
consumed as exactly one flat JSON object. -/
def wellFormedFlatJson (s : List Char) : Bool :=
  jsonScanRun .expectOpen s == .done

/-! ### Helper lemmas -/

lemma collectDigits_of_ne_nil (s : List Char) :
    ∀ acc : List Char, acc ≠ [] →
      collectDigits acc s = acc ++ s.takeWhile (fun c => c.isDigit) := by
  induction s with
  | nil => intro acc _; simp [collectDigits]
  | cons c t ih =>
    intro acc hacc
    by_cases hc : c.isDigit
    · rw [collectDigits, if_pos hc, ih (acc ++ [c]) (by simp),
        List.takeWhile_cons_of_pos hc]
      simp
    · rw [collectDigits, if_neg hc]
      have : acc.isEmpty = false := by
        cases acc with
        | nil => exact absurd rfl hacc
        | cons x xs => rfl
      rw [this]
      simp [List.takeWhile_cons_of_neg hc]

lemma collectDigits_nil (s : List Char) :
    collectDigits [] s =
      (s.dropWhile (fun c => !c.isDigit)).takeWhile (fun c => c.isDigit) := by
  induction s with
  | nil => rfl
  | cons c t ih =>
    by_cases hc : c.isDigit
    · rw [collectDigits, if_pos hc, List.nil_append,
        collectDigits_of_ne_nil t [c] (by simp),
        List.dropWhile_cons, if_neg (by simp [hc]),
        List.takeWhile_cons, if_pos hc]
      rfl
    · rw [collectDigits, if_neg hc]
      have hemp : ([] : List Char).isEmpty = true := rfl
      have hb : (!c.isDigit) = true := by simp [hc]
      rw [hemp, List.dropWhile_cons]
      simp only [hb, if_true]
      exact ih

/-! ### Claim theorems -/

/-- C8: `ExtractNumber` collects the first maximal run of digit characters
(scanning left to right, stopping at the first non-digit after the run
starts) and returns 0 when there are no digits; in particular it maps
`"abc 2pm and 30 min"` to 2 and `"no digits"` to 0. -/
theorem extractNumber_first_digit_run :
    (∀ s : List Char,
      ExtractNumber s =
        (let run := (s.dropWhile (fun c => !c.isDigit)).takeWhile (fun c => c.isDigit)
         if run = [] then 0 else atoiDigits run)) ∧
    ExtractNumber ("abc 2pm and 30 min".data) = 2 ∧
    ExtractNumber ("no digits".data) = 0 := by
  refine ⟨fun s => ?_, by decide, by decide⟩
  rw [ExtractNumber, collectDigits_nil]
  cases h : (s.dropWhile (fun c => !c.isDigit)).takeWhile (fun c => c.isDigit) with
  | nil => simp
  | cons x xs => simp

/-- C7: `ParseDuration` maps "1 hour" to 60, "30 minutes" to 30, "45" to 45
and "banana" to 0; in general the extracted leading integer is multiplied by
60 when "hour" occurs in the (lowercased, trimmed) input and taken as minutes
otherwise (whether or not "minute"/"min" occurs), and an unparsable or
non-positive input yields 0. -/
theorem parseDuration_rules :
    ParseDuration ("1 hour".data) = 60 ∧
    ParseDuration ("30 minutes".data) = 30 ∧
    ParseDuration ("45".data) = 45 ∧
    ParseDuration ("banana".data) = 0 ∧
    (∀ s : List Char,
      ParseDuration s =
        (let lower := trimStartAndEnd (toLowerStr s)
         let n := ExtractNumber lower
         if n = 0 then 0
         else if strContains lower ("hour".data) then n * 60
         else n)) := by
  refine ⟨by decide, by decide, by decide, by decide, fun s => ?_⟩
  rw [ParseDuration]
  by_cases h0 : ExtractNumber (trimStartAndEnd (toLowerStr s)) = 0
  · simp [h0]
  · by_cases hh : strContains (trimStartAndEnd (toLowerStr s)) ("hour".data)
    · simp [h0, hh]
    · by_cases hm : (strContains (trimStartAndEnd (toLowerStr s)) ("minute".data) ||
          strContains (trimStartAndEnd (toLowerStr s)) ("min".data)) = true
      · simp [h0, hh, hm]
      · simp [h0, hh, hm]

/-- C6 (counterexample): the claim that `AskingName` rejects every answer
that trims to fewer than 2 characters is false — the source checks the raw
length before trimming, so the two-space answer `"  "` is accepted and the
empty string is stored as the event name. -/
theorem askingName_accepts_short_trim :
    (ProcessAnswer FDateTime.minValue ⟨.AskingEventName, {}⟩ ("  ".data)).1 = true ∧
    (trimStartAndEnd ("  ".data)).length = 0 := by decide

/-- C6 (amended): in state `AskingName` an answer is accepted iff its RAW
length (before trimming) is at least 2; an accepted answer stores the trimmed
text as the event name, which may therefore be shorter than 2 characters. -/
theorem askingName_raw_length_rule :
    ∀ (now : FDateTime) (d : FCalendarEventData) (a : List Char),
      ProcessAnswer now ⟨.AskingEventName, d⟩ a =
        if a.length < 2 then (false, ⟨.AskingEventName, d⟩, [])
        else (true, ⟨.AskingEventName, { d with eventName := trimStartAndEnd a }⟩, []) := by
  intro now d a
  show liftProcessor _ (ProcessEventName d a) = _
  rw [ProcessEventName]
  by_cases h : a.length < 2
  · have hcond : (a.isEmpty || decide (a.length < 2)) = true := by simp [h]
    rw [hcond]
    simp [liftProcessor, h]
  · have hcond : (a.isEmpty || decide (a.length < 2)) = false := by
      rcases a with _ | ⟨x, xs⟩
      · simp at h
      · simp only [List.isEmpty_cons, Bool.false_or]
        simpa using h
    rw [hcond]
    simp [liftProcessor, h]

/-- C9: when the hand-off is attempted with no `AICompanionManager` actor
present, the component emits only the missing-manager error (no hand-off
event), and the in-progress record is retained (marked confirmed) rather
than discarded. -/
theorem missing_manager_keeps_record :
    ∀ (now : FDateTime) (d : FCalendarEventData),
      ProcessUserResponse now false ⟨.Confirming, d⟩ ("yes".data) =
        (⟨.Idle, { d with bIsValid := true }⟩, [.errorNoManager]) := by
  intro now d
  rfl

/-- C5: `CancelFlow` from any non-`Idle` state returns to `Idle`, clears the
record and emits exactly one cancellation event; a non-affirmative answer at
`Confirming` likewise ends in `Idle` with a cleared record (and the single
cancellation event); restarting with `StartEventCreation` yields the empty
record and the first question again. -/
theorem cancel_decline_restart :
    (∀ m : MState, m.currentState ≠ .Idle →
       CancelFlow m = (⟨.Idle, {}⟩, [.flowCancelled])) ∧
    (∀ (now : FDateTime) (mf : Bool) (d : FCalendarEventData) (a : List Char),
       IsAffirmative a = false →
       ProcessUserResponse now mf ⟨.Confirming, d⟩ a = (⟨.Idle, {}⟩, [.flowCancelled])) ∧
    (∀ m : MState, StartEventCreation m =
       (⟨.AskingEventName, {}⟩,
        [.askQuestion ("What would you like to call this event?".data)])) := by
  refine ⟨fun m _ => rfl, fun now mf d a hna => ?_, fun m => rfl⟩
  simp [ProcessUserResponse, ProcessAnswer, ProcessConfirmation, CancelFlow,
    AskCurrentQuestion, hna]

/-- C5 witness: the three clauses at `Confirming`, answer `"no"`, and a
restart from `Idle`. -/
theorem cancel_decline_restart_witness :
    CancelFlow ⟨.Confirming, {}⟩ = (⟨.Idle, {}⟩, [.flowCancelled]) ∧
    ProcessUserResponse FDateTime.minValue true ⟨.Confirming, {}⟩ ("no".data) =
      (⟨.Idle, {}⟩, [.flowCancelled]) ∧
    StartEventCreation ⟨.Idle, {}⟩ =
      (⟨.AskingEventName, {}⟩,
       [.askQuestion ("What would you like to call this event?".data)]) :=
  ⟨cancel_decline_restart.1 ⟨.Confirming, {}⟩ (by decide),
   cancel_decline_restart.2.1 FDateTime.minValue true {} ("no".data) (by decide),
   cancel_decline_restart.2.2 ⟨.Idle, {}⟩⟩

set_option maxRecDepth 4000 in
/-- C3: the claim that the outbound `create_calendar_event` payload escapes
the free-form text fields is false of the source, which embeds them verbatim:
with the quote-free record of the happy path the payload is a well-formed
flat JSON object, but a record whose name contains a quote character yields a
malformed payload. -/
theorem unescaped_payload_malformed :
    wellFormedFlatJson (buildJSON
      { eventName := "Dentist".data, dateTime := ⟨2025, 1, 16, 14, 0, 0⟩,
        durationMinutes := 60, location := [], notes := [],
        priority := 8, bIsValid := true }) = true ∧
    wellFormedFlatJson (buildJSON
      { eventName := "a\"b".data, dateTime := ⟨2025, 1, 16, 14, 0, 0⟩,
        durationMinutes := 60, location := [], notes := [],
        priority := 8, bIsValid := true }) = false := by decide

lemma liftProcessor_fst_false (m : MState) (o : Option FCalendarEventData)
    (h : (liftProcessor m o).1 = false) : liftProcessor m o = (false, m, []) := by
  cases o with
  | none => rfl
  | some d2 => simp [liftProcessor] at h

/-- C2: in each of the six asking states, an answer rejected by the validation rule of that state leaves the state and the record untouched and re-emits exactly the
question of that state — which is independent of the record, hence identical
to the question asked before the answer. -/
theorem invalid_answer_retries :
    ∀ (now : FDateTime) (mf : Bool) (s : ECalendarDialogueState)
      (d : FCalendarEventData) (a : List Char),
      (s = .AskingEventName ∨ s = .AskingDateTime ∨ s = .AskingDuration ∨
       s = .AskingLocation ∨ s = .AskingNotes ∨ s = .AskingPriority) →
      (ProcessAnswer now ⟨s, d⟩ a).1 = false →
      ProcessUserResponse now mf ⟨s, d⟩ a = (⟨s, d⟩, AskCurrentQuestion s d) ∧
      (∀ d' : FCalendarEventData, AskCurrentQuestion s d' = AskCurrentQuestion s d) := by
  intro now mf s d a hs hfail
  rcases hs with h | h | h | h | h | h <;> subst h
  · have hpa : ProcessAnswer now ⟨.AskingEventName, d⟩ a =
        (false, ⟨.AskingEventName, d⟩, []) :=
      liftProcessor_fst_false _ _ hfail
    refine ⟨?_, fun d' => rfl⟩
    simp only [ProcessUserResponse, hpa]
    simp
  · have hpa : ProcessAnswer now ⟨.AskingDateTime, d⟩ a =
        (false, ⟨.AskingDateTime, d⟩, []) :=
      liftProcessor_fst_false _ _ hfail
    refine ⟨?_, fun d' => rfl⟩
    simp only [ProcessUserResponse, hpa]
    simp
  · have hpa : ProcessAnswer now ⟨.AskingDuration, d⟩ a =
        (false, ⟨.AskingDuration, d⟩, []) :=
      liftProcessor_fst_false _ _ hfail
    refine ⟨?_, fun d' => rfl⟩
    simp only [ProcessUserResponse, hpa]
    simp
  · exact Bool.noConfusion (show (true : Bool) = false from hfail)
  · exact Bool.noConfusion (show (true : Bool) = false from hfail)
  · have hpa : ProcessAnswer now ⟨.AskingPriority, d⟩ a =
        (false, ⟨.AskingPriority, d⟩, []) :=
      liftProcessor_fst_false _ _ hfail
    refine ⟨?_, fun d' => rfl⟩
    simp only [ProcessUserResponse, hpa]
    simp

/-- C2 witness: a one-character name in `AskingEventName` is rejected and the
name question is asked again. -/
theorem invalid_answer_retries_witness :
    (ProcessAnswer FDateTime.minValue ⟨.AskingEventName, {}⟩ ("x".data)).1 = false ∧
    ProcessUserResponse FDateTime.minValue true ⟨.AskingEventName, {}⟩ ("x".data) =
      (⟨.AskingEventName, {}⟩, AskCurrentQuestion .AskingEventName {}) :=
  ⟨by decide,
   (invalid_answer_retries FDateTime.minValue true .AskingEventName {} ("x".data)
      (by decide) (by decide)).1⟩

/-- The states reachable through the public interface (`Creating` and
`Complete` are transient inside the confirming advance). -/
def isObservable : ECalendarDialogueState → Bool
  | .Creating => false
  | .Complete => false
  | _ => true

/-- C10: starting from any state the public interface can exhibit, each
public operation again ends in one of the eight observable states — the enum
values `Creating` and `Complete` are never exposed by `GetCurrentState`. -/
theorem public_ops_stay_observable :
    ∀ (now : FDateTime) (mf : Bool) (m : MState) (a : List Char),
      isObservable m.currentState = true →
      isObservable (StartEventCreation m).1.currentState = true ∧
      isObservable (CancelFlow m).1.currentState = true ∧
      isObservable (ProcessUserResponse now mf m a).1.currentState = true := by
  intro now mf m a hobs
  refine ⟨rfl, rfl, ?_⟩
  obtain ⟨s, d⟩ := m
  cases s
  case Creating => exact Bool.noConfusion (show (false : Bool) = true from hobs)
  case Complete => exact Bool.noConfusion (show (false : Bool) = true from hobs)
  case Idle => simp [ProcessUserResponse, isObservable]
  case AskingEventName =>
    cases hx : ProcessEventName d a with
    | none =>
      simp [ProcessUserResponse, ProcessAnswer, hx, liftProcessor, isObservable]
    | some d2 =>
      simp [ProcessUserResponse, ProcessAnswer, hx, liftProcessor,
        AdvanceToNextState, isObservable]
  case AskingDateTime =>
    cases hx : ProcessDateTime now d a with
    | none =>
      simp [ProcessUserResponse, ProcessAnswer, hx, liftProcessor, isObservable]
    | some d2 =>
      simp [ProcessUserResponse, ProcessAnswer, hx, liftProcessor,
        AdvanceToNextState, isObservable]
  case AskingDuration =>
    cases hx : ProcessDuration d a with
    | none =>
      simp [ProcessUserResponse, ProcessAnswer, hx, liftProcessor, isObservable]
    | some d2 =>
      simp [ProcessUserResponse, ProcessAnswer, hx, liftProcessor,
        AdvanceToNextState, isObservable]
  case AskingLocation =>
    simp [ProcessUserResponse, ProcessAnswer, AdvanceToNextState, isObservable]
  case AskingNotes =>
    simp [ProcessUserResponse, ProcessAnswer, AdvanceToNextState, isObservable]
  case AskingPriority =>
    cases hx : ProcessPriority d a with
    | none =>
      simp [ProcessUserResponse, ProcessAnswer, hx, liftProcessor, isObservable]
    | some d2 =>
      simp [ProcessUserResponse, ProcessAnswer, hx, liftProcessor,
        AdvanceToNextState, isObservable]
  case Confirming =>
    by_cases hx : IsAffirmative a
    · simp [ProcessUserResponse, ProcessAnswer, ProcessConfirmation, hx,
        AdvanceToNextState, isObservable]
    · simp [ProcessUserResponse, ProcessAnswer, ProcessConfirmation, hx,
        CancelFlow, isObservable]

/-- C10 witness: the three operations applied in the initial `Idle` state. -/
theorem public_ops_stay_observable_witness :
    isObservable (StartEventCreation ⟨.Idle, {}⟩).1.currentState = true ∧
    isObservable (CancelFlow ⟨.Idle, {}⟩).1.currentState = true ∧
    isObservable (ProcessUserResponse FDateTime.minValue true ⟨.Idle, {}⟩
      ("hi".data)).1.currentState = true :=
  public_ops_stay_observable FDateTime.minValue true ⟨.Idle, {}⟩ ("hi".data)
    (by decide)

/-! ### Happy-path step lemmas -/

/-- The answer "Dentist". -/
def ansName : List Char := "Dentist".data
/-- The answer "tomorrow at 2pm". -/
def ansWhen : List Char := "tomorrow at 2pm".data
/-- The answer "1 hour". -/
def ansDur : List Char := "1 hour".data
/-- The answer "none". -/
def ansNone : List Char := "none".data
/-- The answer "8". -/
def ansPrio : List Char := "8".data
/-- The answer "yes". -/
def ansYes : List Char := "yes".data

/-- The answers of the happy-path run of the spec. -/
def happyAnswers : List (List Char) :=
  [ansName, ansWhen, ansDur, ansNone, ansNone, ansPrio, ansYes]

lemma parse_tomorrow_2pm (now : FDateTime) :
    ParseDateTime now ansWhen =
      ⟨(addOneDay now).year, (addOneDay now).month, (addOneDay now).day, 14, 0, 0⟩ :=
  rfl

lemma tomorrow14_ne_min (now : FDateTime) :
    (⟨(addOneDay now).year, (addOneDay now).month, (addOneDay now).day, 14, 0, 0⟩ :
      FDateTime) ≠ FDateTime.minValue := by
  intro h
  have h14 := congrArg FDateTime.hour h
  simp [FDateTime.minValue] at h14

lemma processDateTime_tomorrow (now : FDateTime) (d : FCalendarEventData) :
    ProcessDateTime now d ansWhen =
      some { d with dateTime := ⟨(addOneDay now).year, (addOneDay now).month,
                                 (addOneDay now).day, 14, 0, 0⟩ } := by
  unfold ProcessDateTime
  simp only [parse_tomorrow_2pm]
  rw [if_neg (tomorrow14_ne_min now)]

lemma step_name (now : FDateTime) (mf : Bool) (d : FCalendarEventData) :
    ProcessUserResponse now mf ⟨.AskingEventName, d⟩ ansName =
      (⟨.AskingDateTime, { d with eventName := "Dentist".data }⟩,
       AskCurrentQuestion .AskingDateTime { d with eventName := "Dentist".data }) :=
  rfl

lemma step_date (now : FDateTime) (mf : Bool) (d : FCalendarEventData) :
    ProcessUserResponse now mf ⟨.AskingDateTime, d⟩ ansWhen =
      (⟨.AskingDuration,
        { d with dateTime := ⟨(addOneDay now).year, (addOneDay now).month,
                              (addOneDay now).day, 14, 0, 0⟩ }⟩,
       AskCurrentQuestion .AskingDuration
         { d with dateTime := ⟨(addOneDay now).year, (addOneDay now).month,
                               (addOneDay now).day, 14, 0, 0⟩ }) := by
  simp only [ProcessUserResponse, ProcessAnswer, processDateTime_tomorrow,
    liftProcessor]
  simp [AdvanceToNextState]

lemma step_duration (now : FDateTime) (mf : Bool) (d : FCalendarEventData) :
    ProcessUserResponse now mf ⟨.AskingDuration, d⟩ ansDur =
      (⟨.AskingLocation, { d with durationMinutes := 60 }⟩,
       AskCurrentQuestion .AskingLocation { d with durationMinutes := 60 }) :=
  rfl

lemma step_location_none (now : FDateTime) (mf : Bool) (d : FCalendarEventData) :
    ProcessUserResponse now mf ⟨.AskingLocation, d⟩ ansNone =
      (⟨.AskingNotes, { d with location := [] }⟩,
       AskCurrentQuestion .AskingNotes { d with location := [] }) :=
  rfl

lemma step_notes_none (now : FDateTime) (mf : Bool) (d : FCalendarEventData) :
    ProcessUserResponse now mf ⟨.AskingNotes, d⟩ ansNone =
      (⟨.AskingPriority, { d with notes := [] }⟩,
       AskCurrentQuestion .AskingPriority { d with notes := [] }) :=
  rfl

lemma step_priority_8 (now : FDateTime) (mf : Bool) (d : FCalendarEventData) :
    ProcessUserResponse now mf ⟨.AskingPriority, d⟩ ansPrio =
      (⟨.Confirming, { d with priority := 8 }⟩,
       AskCurrentQuestion .Confirming { d with priority := 8 }) :=
  rfl

lemma step_confirm_yes (now : FDateTime) (mf : Bool) (d : FCalendarEventData) :
    ProcessUserResponse now mf ⟨.Confirming, d⟩ ansYes =
      (⟨.Idle, { d with bIsValid := true }⟩,
       SendEventToBackend mf { d with bIsValid := true }) :=
  rfl

/-- C1: the happy-path run (`StartEventCreation`, then "Dentist",
"tomorrow at 2pm", "1 hour", "none", "none", "8", "yes") ends in `Idle` and
the trace contains exactly one `OnEventCreated` hand-off; its record has name
"Dentist", duration 60 minutes, empty location and notes, priority 8, and its
date-time is 14:00:00 on the calendar day after `now`, the day the flow
started. -/
theorem happy_path_run :
    ∀ (now : FDateTime) (m0 : MState),
      (runFlow now true m0 happyAnswers).1.currentState = .Idle ∧
      (runFlow now true m0 happyAnswers).2.filterMap createdRecord =
        [{ eventName := "Dentist".data,
           dateTime := ⟨(addOneDay now).year, (addOneDay now).month,
                        (addOneDay now).day, 14, 0, 0⟩,
           durationMinutes := 60, location := [], notes := [],
           priority := 8, bIsValid := true }] := by
  intro now m0
  constructor
  · simp only [runFlow, happyAnswers, runResponses, StartEventCreation,
      step_name, step_date, step_duration, step_location_none, step_notes_none,
      step_priority_8, step_confirm_yes]
  · simp only [runFlow, happyAnswers, runResponses, StartEventCreation,
      step_name, step_date, step_duration, step_location_none, step_notes_none,
      step_priority_8, step_confirm_yes, SendEventToBackend, AskCurrentQuestion]
    simp [createdRecord]

set_option maxRecDepth 8000 in
/-- C4 (counterexample): the claim that the record is reset immediately after
a successful hand-off is false of the source — after the happy-path run
completes with the confirming "yes", the stored record (what `GetEventData()`
returns) is not the empty record: it still holds the confirmed event. -/
theorem record_kept_after_handoff_cex :
    (runFlow ⟨2025, 1, 15, 10, 0, 0⟩ true ⟨.Idle, {}⟩ happyAnswers).1.eventData ≠
      ({} : FCalendarEventData) := by decide

/-- C4 (amended): the record is reset to the empty record on cancellation and
at the start of a new flow, but NOT after a successful hand-off: the
confirming "yes" leaves the engine in `Idle` with the completed record still
stored, marked valid. -/
theorem record_reset_policy :
    (∀ m : MState, (CancelFlow m).1.eventData = ({} : FCalendarEventData)) ∧
    (∀ m : MState, (StartEventCreation m).1.eventData = ({} : FCalendarEventData)) ∧
    (∀ (now : FDateTime) (mf : Bool) (d : FCalendarEventData),
       ProcessUserResponse now mf ⟨.Confirming, d⟩ ansYes =
         (⟨.Idle, { d with bIsValid := true }⟩,
          SendEventToBackend mf { d with bIsValid := true })) :=
  ⟨fun _ => rfl, fun _ => rfl, step_confirm_yes⟩

end CalendarDialogue
